import Mathlib

/-!
Shallow embedding of the meshtastic-scripts repository's parsing and
alerting logic (src/mesh-monitor.py and src/node-health-alert.py).

Python strings are modelled as Lean `String`s; Python dicts as insertion
ordered association lists (`dictGet`/`dictSet` below, matching dict's
in-place update semantics). Timestamps (`time.time()` values) are
modelled as integer time units, SNR floats as exact rationals built with
`mkRat`; float special values (inf/nan) and the unicode digit forms
accepted by Python's `int`/`float` are outside the model.
-/

namespace Mesh

/-- Whitespace predicate used to model Python `str.strip()`. -/
def pyWs (c : Char) : Bool := c.isWhitespace

/-- Strip whitespace from both ends of a character list (`str.strip()`). -/
def stripChars (l : List Char) : List Char :=
  ((l.dropWhile pyWs).reverse.dropWhile pyWs).reverse

/-- Python `s.strip()`. -/
def pyStrip (s : String) : String := String.mk (stripChars s.data)

/-- Split a character list at the first occurrence of `c`
(the two halves of Python `s.split(c, 1)` when `c` occurs). -/
def splitFirstAux (c : Char) : List Char → List Char × List Char
  | [] => ([], [])
  | x :: rest =>
    if x = c then ([], rest)
    else
      let p := splitFirstAux c rest
      (x :: p.1, p.2)

/-- Python `s.split(c, 1)` (a list of one or two pieces). -/
def pySplitOnce (c : Char) (l : List Char) : List (List Char) :=
  if l.contains c then
    let p := splitFirstAux c l
    [p.1, p.2]
  else [l]

/-- Helper for `pySplitLines`. -/
def splitLinesAux : List Char → List Char → List (List Char)
  | [], acc => [acc.reverse]
  | c :: rest, acc =>
    if c = '\n' then acc.reverse :: splitLinesAux rest []
    else splitLinesAux rest (c :: acc)

/-- Python `s.split('\n')`. -/
def pySplitLines (s : String) : List String :=
  (splitLinesAux s.data []).map String.mk

/-- Helper for `removeAll`: removes every non-overlapping occurrence of the
pattern `p :: ps`, scanning left to right.  The fuel argument (instantiated
with the length of the list, which always suffices) keeps the recursion
structural. -/
def removeAllAux (p : Char) (ps : List Char) : Nat → List Char → List Char
  | 0, l => l
  | _ + 1, [] => []
  | fuel + 1, c :: rest =>
    if c = p ∧ ps.isPrefixOf rest then removeAllAux p ps fuel (rest.drop ps.length)
    else c :: removeAllAux p ps fuel rest

/-- Python `s.replace(pat, '')` for a non-empty pattern. -/
def removeAll (pat : String) (s : String) : String :=
  match pat.data with
  | [] => s
  | p :: ps => String.mk (removeAllAux p ps s.data.length s.data)

/-- Digit runs as accepted by Python numeric literals: non-empty, single
underscores allowed strictly between digits. -/
def intDigitsOk : List Char → Bool
  | [] => false
  | [c] => c.isDigit
  | c :: '_' :: rest => c.isDigit && intDigitsOk rest
  | c :: rest => c.isDigit && intDigitsOk rest

/-- Drop grouping underscores. -/
def digitsOf (l : List Char) : List Char := l.filter (fun c => c ≠ '_')

/-- Numeric value of a list of decimal digits. -/
def natOfDigits (l : List Char) : Nat :=
  l.foldl (fun n c => 10 * n + (c.toNat - 48)) 0

/-- Take one optional leading sign; returns (isNegative, rest). -/
def sgnSplit : List Char → Bool × List Char
  | '+' :: r => (false, r)
  | '-' :: r => (true, r)
  | r => (false, r)

/-- Python `int(s)`: strip, optional sign, digit run. `none` models the
`ValueError` that the scripts catch and ignore. -/
def pyInt (s : String) : Option Int :=
  let p := sgnSplit (stripChars s.data)
  if intDigitsOk p.2 then
    some (if p.1 then -(natOfDigits (digitsOf p.2) : Int) else (natOfDigits (digitsOf p.2) : Int))
  else none

/-- Empty-or-valid digit run (integer / fractional part of a float). -/
def optDigitsOk (l : List Char) : Bool := l.isEmpty || intDigitsOk l

/-- Mantissa of a Python float literal: `D* '.' D*` (not both empty) or `D+`,
as an exact rational. -/
def mantissaVal (l : List Char) : Option ℚ :=
  if l.contains '.' then
    let p := splitFirstAux '.' l
    if p.2.contains '.' then none
    else if optDigitsOk p.1 && optDigitsOk p.2 && !(p.1.isEmpty && p.2.isEmpty) then
      let fd := digitsOf p.2
      some (mkRat (natOfDigits (digitsOf p.1) * 10 ^ fd.length + natOfDigits fd) (10 ^ fd.length))
    else none
  else if intDigitsOk l then some (mkRat (natOfDigits (digitsOf l)) 1) else none

/-- Exponent of a Python float literal: optional sign, digit run. -/
def expVal (l : List Char) : Option Int :=
  let p := sgnSplit l
  if intDigitsOk p.2 then
    some (if p.1 then -(natOfDigits (digitsOf p.2) : Int) else (natOfDigits (digitsOf p.2) : Int))
  else none

/-- Scale a mantissa by a decimal exponent. -/
def applyExp (m : ℚ) (e : Int) : ℚ :=
  if 0 ≤ e then mkRat (m.num * (10 : Int) ^ e.toNat) m.den
  else mkRat m.num (m.den * 10 ^ (-e).toNat)

/-- Negate a rational without the (irreducible) `Rat.neg` path. -/
def negRat (x : ℚ) : ℚ := mkRat (-x.num) x.den

/-- Normalize the exponent marker `E` to `e`. -/
def normE (l : List Char) : List Char :=
  l.map (fun c => if c = 'E' then 'e' else c)

/-- Python `float(s)` on decimal forms, as an exact rational. `none` models
the `ValueError` that the scripts catch and ignore. -/
def pyFloat (s : String) : Option ℚ :=
  let t := normE (stripChars s.data)
  let p := sgnSplit t
  let v : Option ℚ :=
    if p.2.contains 'e' then
      let q := splitFirstAux 'e' p.2
      if q.2.contains 'e' then none
      else
        match mantissaVal q.1, expVal q.2 with
        | some m, some e => some (applyExp m e)
        | _, _ => none
    else mantissaVal p.2
  v.map (fun x => if p.1 then negRat x else x)

/-- Python `s.startswith(pre)`. -/
def pyStartsWith (s pre : String) : Bool := pre.data.isPrefixOf s.data

/-- Helper for `containsSub`. -/
def infixCheck (pat : List Char) : List Char → Bool
  | [] => pat.isEmpty
  | c :: rest => pat.isPrefixOf (c :: rest) || infixCheck pat rest

/-- Python substring containment `pat in s`. -/
def containsSub (s pat : String) : Bool := infixCheck pat.data s.data

/-- Python dict lookup `m.get(k)`. -/
def dictGet {α : Type} : List (String × α) → String → Option α
  | [], _ => none
  | (k', v) :: rest, k => if k' = k then some v else dictGet rest k

/-- Python dict store `m[k] = v`: in-place update of an existing key,
append of a fresh key (insertion order preserved, as in Python). -/
def dictSet {α : Type} : List (String × α) → String → α → List (String × α)
  | [], k, v => [(k, v)]
  | (k', v') :: rest, k, v =>
    if k' = k then (k, v) :: rest else (k', v') :: dictSet rest k v

-- sanity checks on the Python-builtin models
example : pyStrip "  a b  " = "a b" := by decide
example : pyInt " 15 " = some 15 := by decide
example : pyInt "1_5" = some 15 := by decide
example : pyInt "1__5" = none := by decide
example : pyInt "-20" = some (-20) := by decide
example : pyInt "" = none := by decide
example : pyInt "12a" = none := by decide
example : pyFloat "-12.3" = some (mkRat (-123) 10) := by decide
example : pyFloat "1e2" = some 100 := by decide
example : pyFloat "-1.5e-1" = some (mkRat (-15) 100) := by decide
example : pyFloat "." = none := by decide
example : pyFloat "1." = some 1 := by decide
example : pyFloat "abc" = none := by decide
example : pyFloat "-12.3" = some (-123/10) := by
  rw [show pyFloat "-12.3" = some (mkRat (-123) 10) from by decide]
  norm_num [Rat.mkRat_eq_div]
example : removeAll "%" "15%" = "15" := by decide
example : removeAll "dB" "-12.3dB" = "-12.3" := by decide
example : pySplitLines "a\nb" = ["a", "b"] := by decide
example : pySplitLines "" = [""] := by decide
example : mkRat (-123) 10 < -10 := by decide

/-! ## node-health-alert.py: `NodeHealthMonitor` state and `check_node_health` -/

/-- The mutable per-monitor state of `NodeHealthMonitor` (node-health-alert.py
lines 21-23): `last_seen` maps node id to the timestamp of its last present
observation, `battery_status` caches the last parsed battery level, and
`alert_count` maps composite suppression keys to the time an alert last fired. -/
structure HealthState where
  last_seen : List (String × Int)
  battery_status : List (String × Int)
  alert_count : List (String × Int)
deriving DecidableEq

/-- The state of a freshly constructed monitor. -/
def initState : HealthState := ⟨[], [], []⟩

/-- Alert categories distinguished by the messages `check_node_health` emits. -/
inductive AlertCat
  | offline
  | lowBattery
  | weakSignal
deriving DecidableEq

/-- The two alert categories that share the `alert_count` cooldown structure. -/
inductive CooldownCat
  | battery
  | snr
deriving DecidableEq

/-- The composite suppression keys built at node-health-alert.py lines 81 and
97: `f"{node_id}_battery"` and `f"{node_id}_snr"`. -/
def alertKey (node_id : String) : CooldownCat → String
  | .battery => node_id ++ "_battery"
  | .snr => node_id ++ "_snr"

/-- `BATTERY_THRESHOLD` (node-health-alert.py line 15, default kept). -/
def BATTERY_THRESHOLD : Int := 20

/-- The condition `alert_key not in self.alert_count or
(time.time() - self.alert_count[alert_key]) > 3600` guarding both cooldown
limited alerts. -/
def cooldownOpen (ac : List (String × Int)) (key : String) (now : Int) : Bool :=
  match dictGet ac key with
  | none => true
  | some t => decide (now - t > 3600)

/-- The battery value `check_node_health` derives from a field map
(node-health-alert.py lines 75-78): the `Battery` field, required non-empty
and containing `%`, with every `%` removed, stripped, parsed as `int`;
`none` on any failure. -/
def batteryPercentOf (node_data : List (String × String)) : Option Int :=
  let battery_str := (dictGet node_data "Battery").getD ""
  if battery_str ≠ "" ∧ battery_str.data.contains '%' then
    pyInt (pyStrip (removeAll "%" battery_str))
  else none

/-- The SNR value `check_node_health` derives from a field map
(node-health-alert.py lines 92-95): the `SNR` field, required non-empty and
containing the substring `dB`, with every `dB` removed, stripped, parsed as
`float`; `none` on any failure. -/
def snrDbOf (node_data : List (String × String)) : Option ℚ :=
  let snr_str := (dictGet node_data "SNR").getD ""
  if snr_str ≠ "" ∧ containsSub snr_str "dB" then
    pyFloat (pyStrip (removeAll "dB" snr_str))
  else none

/-- The battery block of `check_node_health` (node-health-alert.py lines
74-89): fires a low-battery alert when the parsed level is at most the
threshold and the cooldown is open, records the firing time, and caches the
parsed level in `battery_status`. -/
def batteryCheck (st : HealthState) (now : Int) (node_id : String)
    (node_data : List (String × String)) : List AlertCat × HealthState :=
  match batteryPercentOf node_data with
  | some battery_level =>
    let fired :=
      if battery_level ≤ BATTERY_THRESHOLD then
        if cooldownOpen st.alert_count (alertKey node_id .battery) now then
          ([AlertCat.lowBattery],
           { st with alert_count := dictSet st.alert_count (alertKey node_id .battery) now })
        else ([], st)
      else ([], st)
    (fired.1, { fired.2 with battery_status := dictSet fired.2.battery_status node_id battery_level })
  | none => ([], st)

/-- The SNR block of `check_node_health` (node-health-alert.py lines 91-103):
fires a weak-signal alert when the parsed SNR is below -10 and the cooldown is
open, recording the firing time. -/
def snrCheck (st : HealthState) (now : Int) (node_id : String)
    (node_data : List (String × String)) : List AlertCat × HealthState :=
  match snrDbOf node_data with
  | some snr =>
    if snr < -10 then
      if cooldownOpen st.alert_count (alertKey node_id .snr) now then
        ([AlertCat.weakSignal],
         { st with alert_count := dictSet st.alert_count (alertKey node_id .snr) now })
      else ([], st)
    else ([], st)
  | none => ([], st)

/-- `check_node_health` (node-health-alert.py lines 60-105): an empty field
map means the node is absent, alerting offline iff the node has a `last_seen`
entry; otherwise `last_seen` is refreshed and the battery and SNR blocks run
in order. Returns the emitted alerts (by category, in emission order) and the
updated monitor state. -/
def check_node_health (st : HealthState) (now : Int) (node_id : String)
    (node_data : List (String × String)) : List AlertCat × HealthState :=
  if node_data.isEmpty then
    if (dictGet st.last_seen node_id).isSome then ([AlertCat.offline], st) else ([], st)
  else
    let st0 := { st with last_seen := dictSet st.last_seen node_id now }
    let b := batteryCheck st0 now node_id node_data
    let s := snrCheck b.2 now node_id node_data
    (b.1 ++ s.1, s.2)

/-- Run a sequence of `check_node_health` evaluations (each a timestamp, node
id and parsed field map), returning the per-call alert lists and final state;
this is the per-cycle loop of `monitor` (node-health-alert.py lines 133-135)
restricted to the state machine. -/
def runChecks : HealthState → List (Int × String × List (String × String)) →
    List (List AlertCat) × HealthState
  | st, [] => ([], st)
  | st, c :: rest =>
    let r := check_node_health st c.1 c.2.1 c.2.2
    let rr := runChecks r.2 rest
    (r.1 :: rr.1, rr.2)

/-! ## node-health-alert.py: `parse_node_data` -/

/-- The loop of `parse_node_data` (node-health-alert.py lines 46-56): the
flag is `in_target_node`; a line stripping to the node id (re)enters the
target block, a line starting with `!` while inside the block stops the scan,
and any line containing `:` inside the block is stored split on the first
`:` with both sides stripped. -/
def parse_node_data_go (node_id : String) :
    List String → Bool → List (String × String) → List (String × String)
  | [], _, node_data => node_data
  | line :: rest, inT, node_data =>
    if pyStrip line = node_id then parse_node_data_go node_id rest true node_data
    else if inT then
      if pyStartsWith line "!" then node_data
      else if line.data.contains ':' then
        let p := splitFirstAux ':' line.data
        parse_node_data_go node_id rest true
          (dictSet node_data (pyStrip (String.mk p.1)) (pyStrip (String.mk p.2)))
      else parse_node_data_go node_id rest true node_data
    else parse_node_data_go node_id rest false node_data

/-- `parse_node_data` (node-health-alert.py lines 40-58): extract the field
block of one target node from the raw `--nodes` output. -/
def parse_node_data (output : String) (node_id : String) : List (String × String) :=
  parse_node_data_go node_id (pySplitLines output) false []

example :
    parse_node_data "!a\n  SNR: -12.3dB\n!b\n  SNR: 1dB" "!a" = [("SNR", "-12.3dB")] := by
  decide
example : parse_node_data "!a\n  SNR: 1dB" "!c" = [] := by decide
example :
    check_node_health initState 1000 "!abc123" [("Battery", "15%"), ("SNR", "-12.3dB")] =
      ([AlertCat.lowBattery, AlertCat.weakSignal],
       ⟨[("!abc123", 1000)], [("!abc123", 15)],
        [("!abc123_battery", 1000), ("!abc123_snr", 1000)]⟩) := by
  decide

/-! ## mesh-monitor.py: `parse_nodes` -/

/-- The dictionary of node records built by `parse_nodes`. -/
abbrev NodesMap := List (String × List (String × String))

/-- One iteration of the `parse_nodes` loop (mesh-monitor.py lines 45-57):
a line starting with two spaces is a node data line, stored when it contains
`:` and the stripped-and-split key and value parts are non-empty and a
current node exists; any other line is a node header when its stripped form
starts with `!`, opening (or resetting) that node's record. -/
def parse_nodes_step (acc : NodesMap × Option String) (line : String) :
    NodesMap × Option String :=
  if pyStartsWith line "  " then
    if line.data.contains ':' then
      let p := splitFirstAux ':' (pyStrip line).data
      match acc.2 with
      | some current_node =>
        if p.1 ≠ [] ∧ p.2 ≠ [] then
          (dictSet acc.1 current_node
            (dictSet ((dictGet acc.1 current_node).getD [])
              (pyStrip (String.mk p.1)) (pyStrip (String.mk p.2))), acc.2)
        else acc
      | none => acc
    else acc
  else
    let node_id := pyStrip line
    if pyStartsWith node_id "!" then (dictSet acc.1 node_id [], some node_id)
    else acc

/-- The `parse_nodes` loop over a list of lines. -/
def parse_nodes_go : List String → NodesMap × Option String → NodesMap × Option String
  | [], acc => acc
  | line :: rest, acc => parse_nodes_go rest (parse_nodes_step acc line)

/-- `parse_nodes` (mesh-monitor.py lines 40-59): parse the raw `--nodes`
output into a mapping node id → field map. -/
def parse_nodes (output : String) : NodesMap :=
  (parse_nodes_go (pySplitLines output) ([], none)).1

/-- A variant of the `parse_nodes` loop in which every partial Python
operation of the source is modelled fallibly: the tuple unpacking
`key, value = line.strip().split(':', 1)` errors unless the split yields
exactly two pieces, and the subscript `nodes[current_node]` errors unless the
key is present. Used to state that `parse_nodes` never raises. -/
def parse_nodes_chk_go : List String → NodesMap × Option String → Except String NodesMap
  | [], acc => .ok acc.1
  | line :: rest, acc =>
    if pyStartsWith line "  " then
      if line.data.contains ':' then
        match pySplitOnce ':' (pyStrip line).data with
        | [key, value] =>
          match acc.2 with
          | some current_node =>
            if key ≠ [] ∧ value ≠ [] then
              match dictGet acc.1 current_node with
              | some record =>
                parse_nodes_chk_go rest
                  (dictSet acc.1 current_node
                    (dictSet record (pyStrip (String.mk key)) (pyStrip (String.mk value))),
                   acc.2)
              | none => .error "KeyError"
            else parse_nodes_chk_go rest acc
          | none => parse_nodes_chk_go rest acc
        | _ => .error "ValueError: unpacking"
      else parse_nodes_chk_go rest acc
    else
      let node_id := pyStrip line
      if pyStartsWith node_id "!" then
        parse_nodes_chk_go rest (dictSet acc.1 node_id [], some node_id)
      else parse_nodes_chk_go rest acc

/-- `parse_nodes` with all partial operations checked. -/
def parse_nodes_chk (output : String) : Except String NodesMap :=
  parse_nodes_chk_go (pySplitLines output) ([], none)

/-! ## Parsers as the spec describes them (comparators for refutation) -/

/-- A line starts with at least one whitespace character. -/
def startsWithWs (s : String) : Bool :=
  match s.data with
  | [] => false
  | c :: _ => pyWs c

/-- Node header line as defined by the spec: after trimming non-empty, no
leading whitespace, and the trimmed form begins with `!`. -/
def specHeaderLine (s : String) : Bool :=
  !(startsWithWs s) && pyStrip s ≠ "" && pyStartsWith (pyStrip s) "!"

/-- Field line as defined by the spec: at least one leading whitespace
character and a `:` separator. -/
def specFieldLine (s : String) : Bool :=
  startsWithWs s && s.data.contains ':'

/-- The parser exactly as the spec's words describe it (spec §4.1), used to
compare `parse_nodes` against the claimed behaviour: a header line opens a
new current node; a field line is split on the first `:`, both sides trimmed,
and stored into the current node's map; field lines before any header are
dropped; all other lines are ignored. -/
def specParseNodes_step (acc : NodesMap × Option String) (line : String) :
    NodesMap × Option String :=
  if specHeaderLine line then
    (dictSet acc.1 (pyStrip line) [], some (pyStrip line))
  else if specFieldLine line then
    match acc.2 with
    | some current =>
      let p := splitFirstAux ':' line.data
      (dictSet acc.1 current
        (dictSet ((dictGet acc.1 current).getD [])
          (pyStrip (String.mk p.1)) (pyStrip (String.mk p.2))), acc.2)
    | none => acc
  else acc

/-- Fold of `specParseNodes_step`. -/
def specParseNodes_go : List String → NodesMap × Option String → NodesMap × Option String
  | [], acc => acc
  | line :: rest, acc => specParseNodes_go rest (specParseNodes_step acc line)

/-- The whole-text parser described by spec §4.1. -/
def specParseNodes (output : String) : NodesMap :=
  (specParseNodes_go (pySplitLines output) ([], none)).1

/-- Scan for the first line whose stripped form equals the target id,
returning the remaining lines (shared by the spec-described and the
code-faithful single-node extraction). -/
def scanTarget (target : String) : List String → Option (List String)
  | [] => none
  | l :: rest => if pyStrip l = target then some rest else scanTarget target rest

/-- Collection phase of the single-node parser as the spec's words describe
it (spec §4.1): collect field lines until the next header line or EOF. -/
def specCollectFields : List String → List (String × String) → List (String × String)
  | [], acc => acc
  | l :: rest, acc =>
    if specHeaderLine l then acc
    else if specFieldLine l then
      let p := splitFirstAux ':' l.data
      specCollectFields rest (dictSet acc (pyStrip (String.mk p.1)) (pyStrip (String.mk p.2)))
    else specCollectFields rest acc

/-- The single-node parser exactly as the spec's words describe it, used to
compare `parse_node_data` against the claimed behaviour. -/
def specParseSingleNode (text : String) (target : String) : List (String × String) :=
  match scanTarget target (pySplitLines text) with
  | none => []
  | some rest => specCollectFields rest []

/-- Collection phase matching what `parse_node_data` actually does: lines
stripping to the target are skipped, a line starting with `!` (and not
stripping to the target) stops the scan, and every line containing `:` is
stored split on the first `:` with both sides stripped. -/
def amendCollectFields (target : String) :
    List String → List (String × String) → List (String × String)
  | [], acc => acc
  | l :: rest, acc =>
    if pyStrip l = target then amendCollectFields target rest acc
    else if pyStartsWith l "!" then acc
    else if l.data.contains ':' then
      let p := splitFirstAux ':' l.data
      amendCollectFields target rest (dictSet acc (pyStrip (String.mk p.1)) (pyStrip (String.mk p.2)))
    else amendCollectFields target rest acc

/-- Scan-then-collect restatement of `parse_node_data` (the amended claim
C5). -/
def amendedSingleNode (text : String) (target : String) : List (String × String) :=
  match scanTarget target (pySplitLines text) with
  | none => []
  | some rest => amendCollectFields target rest []

/-- Header line as `parse_nodes` actually classifies it: not starting with
two spaces, and stripping to a string that begins with `!`. -/
def codeHeaderLine (s : String) : Bool :=
  !(pyStartsWith s "  ") && pyStartsWith (pyStrip s) "!"

/-- The classification of one input line that `parse_nodes` actually
implements (the amended claim C4). -/
inductive LineKind
  | headerOf (id : String)
  | fieldOf (key value : String)
  | ignoredLine

/-- Classify a line the way `parse_nodes` treats it: a header when it does
not begin with two spaces and strips to a `!`-prefixed id; a field when it
begins with two spaces, contains `:`, and stripping then splitting on the
first `:` leaves both parts non-empty; ignored otherwise. -/
def lineKind (line : String) : LineKind :=
  if codeHeaderLine line then
    .headerOf (pyStrip line)
  else if pyStartsWith line "  " && line.data.contains ':' then
    let p := splitFirstAux ':' (pyStrip line).data
    if p.1 ≠ [] ∧ p.2 ≠ [] then .fieldOf (pyStrip (String.mk p.1)) (pyStrip (String.mk p.2))
    else .ignoredLine
  else .ignoredLine

/-- The parser restated through `lineKind` (the amended claim C4): headers
open a node, fields are stored into the current node (dropped when no node
is open yet), ignored lines change nothing. -/
def amendedStep (acc : NodesMap × Option String) (line : String) :
    NodesMap × Option String :=
  match lineKind line with
  | .headerOf id => (dictSet acc.1 id [], some id)
  | .fieldOf key value =>
    match acc.2 with
    | some current =>
      (dictSet acc.1 current
        (dictSet ((dictGet acc.1 current).getD []) key value), acc.2)
    | none => acc
  | .ignoredLine => acc

/-- Fold of `amendedStep`. -/
def amendedParseNodes_go : List String → NodesMap × Option String → NodesMap × Option String
  | [], acc => acc
  | line :: rest, acc => amendedParseNodes_go rest (amendedStep acc line)

/-- Whole-text parser of the amended claim C4. -/
def amendedParseNodes (output : String) : NodesMap :=
  (amendedParseNodes_go (pySplitLines output) ([], none)).1

-- sanity checks on the parsers
example : parse_nodes "!a\n  SNR: 1dB\n!b\n  User: x" =
    [("!a", [("SNR", "1dB")]), ("!b", [("User", "x")])] := by decide
example : parse_nodes " !x" = [("!x", [])] := by decide
example : specParseNodes " !x" = [] := by decide
example : parse_nodes_chk "!a\n  SNR: 1dB" = .ok [("!a", [("SNR", "1dB")])] := rfl

/-! ## Dictionary lemmas -/

theorem dictGet_dictSet_self {α : Type} (m : List (String × α)) (k : String) (v : α) :
    dictGet (dictSet m k v) k = some v := by
  induction m with
  | nil => simp [dictGet, dictSet]
  | cons hd t ih =>
    obtain ⟨k', v'⟩ := hd
    by_cases hk : k' = k <;> simp [dictGet, dictSet, hk, ih]

theorem dictGet_dictSet_ne {α : Type} (m : List (String × α)) {k k' : String} (v : α)
    (h : k' ≠ k) : dictGet (dictSet m k v) k' = dictGet m k' := by
  have h' : ¬(k = k') := Ne.symm h
  induction m with
  | nil => simp [dictGet, dictSet, h']
  | cons hd t ih =>
    obtain ⟨k₀, v₀⟩ := hd
    by_cases hk : k₀ = k
    · subst hk
      simp [dictGet, dictSet, h']
    · simp [dictGet, dictSet, hk, ih]

theorem dictGet_isSome_iff {α : Type} (m : List (String × α)) (k : String) :
    (dictGet m k).isSome = true ↔ k ∈ m.map Prod.fst := by
  induction m with
  | nil => simp [dictGet]
  | cons hd t ih =>
    obtain ⟨k', v'⟩ := hd
    by_cases hk : k' = k
    · subst hk
      simp [dictGet]
    · have h' : ¬(k = k') := Ne.symm hk
      simp [dictGet, hk, ih, h']

theorem keys_dictSet_mem {α : Type} (m : List (String × α)) {k : String} (v : α)
    (h : k ∈ m.map Prod.fst) : (dictSet m k v).map Prod.fst = m.map Prod.fst := by
  induction m with
  | nil => simp at h
  | cons hd t ih =>
    obtain ⟨k', v'⟩ := hd
    by_cases hk : k' = k
    · simp [dictSet, hk]
    · simp only [List.map_cons, List.mem_cons] at h
      rcases h with h | h
      · exact absurd h.symm hk
      · simp [dictSet, hk, ih h]

theorem keys_dictSet_new {α : Type} (m : List (String × α)) {k : String} (v : α)
    (h : k ∉ m.map Prod.fst) : (dictSet m k v).map Prod.fst = m.map Prod.fst ++ [k] := by
  induction m with
  | nil => simp [dictSet]
  | cons hd t ih =>
    obtain ⟨k', v'⟩ := hd
    simp only [List.map_cons, List.mem_cons, not_or] at h
    have hne : ¬(k' = k) := fun e => h.1 e.symm
    simp [dictSet, hne, ih h.2]

/-! ## Injectivity of the composite suppression keys -/

theorem alertKey_injective {n1 n2 : String} {c1 c2 : CooldownCat}
    (h : alertKey n1 c1 = alertKey n2 c2) : n1 = n2 ∧ c1 = c2 := by
  have hd := congrArg String.data h
  obtain ⟨l1⟩ := n1
  obtain ⟨l2⟩ := n2
  cases c1 <;> cases c2 <;>
    simp only [alertKey, String.data_append] at hd <;>
    refine ⟨?_, ?_⟩
  · exact congrArg String.mk (List.append_cancel_right hd)
  · rfl
  · exact absurd (congrArg List.getLast? hd) (by simp)
  · exact absurd (congrArg List.getLast? hd) (by simp)
  · exact absurd (congrArg List.getLast? hd) (by simp)
  · exact absurd (congrArg List.getLast? hd) (by simp)
  · exact congrArg String.mk (List.append_cancel_right hd)
  · rfl

/-! ## Structure lemmas for `check_node_health` -/

theorem batteryCheck_last_seen (st : HealthState) (now : Int) (id : String)
    (data : List (String × String)) :
    (batteryCheck st now id data).2.last_seen = st.last_seen := by
  rcases h : batteryPercentOf data with _ | lvl
  · simp [batteryCheck, h]
  · simp only [batteryCheck, h]
    split_ifs <;> rfl

theorem snrCheck_last_seen (st : HealthState) (now : Int) (id : String)
    (data : List (String × String)) :
    (snrCheck st now id data).2.last_seen = st.last_seen := by
  rcases h : snrDbOf data with _ | q
  · simp [snrCheck, h]
  · simp only [snrCheck, h]
    split_ifs <;> rfl

theorem snrCheck_battery_status (st : HealthState) (now : Int) (id : String)
    (data : List (String × String)) :
    (snrCheck st now id data).2.battery_status = st.battery_status := by
  rcases h : snrDbOf data with _ | q
  · simp [snrCheck, h]
  · simp only [snrCheck, h]
    split_ifs <;> rfl

theorem batteryCheck_fst_cases (st : HealthState) (now : Int) (id : String)
    (data : List (String × String)) :
    (batteryCheck st now id data).1 = [] ∨
      (batteryCheck st now id data).1 = [AlertCat.lowBattery] := by
  rcases h : batteryPercentOf data with _ | lvl
  · simp [batteryCheck, h]
  · simp only [batteryCheck, h]
    split_ifs <;> simp

theorem snrCheck_fst_cases (st : HealthState) (now : Int) (id : String)
    (data : List (String × String)) :
    (snrCheck st now id data).1 = [] ∨
      (snrCheck st now id data).1 = [AlertCat.weakSignal] := by
  rcases h : snrDbOf data with _ | q
  · simp [snrCheck, h]
  · simp only [snrCheck, h]
    split_ifs <;> simp

theorem mem_lowBattery_batteryCheck_iff (st : HealthState) (now : Int) (id : String)
    (data : List (String × String)) :
    AlertCat.lowBattery ∈ (batteryCheck st now id data).1 ↔
      (∃ lvl, batteryPercentOf data = some lvl ∧ lvl ≤ BATTERY_THRESHOLD) ∧
        cooldownOpen st.alert_count (alertKey id .battery) now = true := by
  rcases h : batteryPercentOf data with _ | lvl <;> simp only [batteryCheck, h]
  · simp
  · split_ifs with h1 h2 <;> simp_all

theorem mem_weakSignal_snrCheck_iff (st : HealthState) (now : Int) (id : String)
    (data : List (String × String)) :
    AlertCat.weakSignal ∈ (snrCheck st now id data).1 ↔
      (∃ q, snrDbOf data = some q ∧ q < -10) ∧
        cooldownOpen st.alert_count (alertKey id .snr) now = true := by
  rcases h : snrDbOf data with _ | q <;> simp only [snrCheck, h]
  · simp
  · split_ifs with h1 h2 <;> simp_all

theorem batteryCheck_count_of_fire (st : HealthState) (now : Int) (id : String)
    (data : List (String × String))
    (h : AlertCat.lowBattery ∈ (batteryCheck st now id data).1) :
    dictGet (batteryCheck st now id data).2.alert_count (alertKey id .battery) = some now := by
  rcases hb : batteryPercentOf data with _ | lvl <;> simp only [batteryCheck, hb] at h ⊢
  · simp at h
  · split_ifs at h ⊢ with h1 h2 <;> simp_all [dictGet_dictSet_self]

theorem batteryCheck_alert_count_snr (st : HealthState) (now : Int) (id id' : String)
    (data : List (String × String)) :
    dictGet (batteryCheck st now id data).2.alert_count (alertKey id' .snr) =
      dictGet st.alert_count (alertKey id' .snr) := by
  have hne : alertKey id' CooldownCat.snr ≠ alertKey id CooldownCat.battery := by
    intro e
    exact CooldownCat.noConfusion (alertKey_injective e).2
  rcases hb : batteryPercentOf data with _ | lvl
  · simp [batteryCheck, hb]
  · simp only [batteryCheck, hb]
    split_ifs <;> simp [dictGet_dictSet_ne _ _ hne]

theorem snrCheck_alert_count_battery (st : HealthState) (now : Int) (id id' : String)
    (data : List (String × String)) :
    dictGet (snrCheck st now id data).2.alert_count (alertKey id' .battery) =
      dictGet st.alert_count (alertKey id' .battery) := by
  have hne : alertKey id' CooldownCat.battery ≠ alertKey id CooldownCat.snr := by
    intro e
    exact CooldownCat.noConfusion (alertKey_injective e).2
  rcases hs : snrDbOf data with _ | q
  · simp [snrCheck, hs]
  · simp only [snrCheck, hs]
    split_ifs <;> simp [dictGet_dictSet_ne _ _ hne]

theorem batteryCheck_battery_status_get (st : HealthState) (now : Int) (id : String)
    (data : List (String × String)) :
    dictGet (batteryCheck st now id data).2.battery_status id =
      match batteryPercentOf data with
      | some n => some n
      | none => dictGet st.battery_status id := by
  rcases h : batteryPercentOf data with _ | lvl
  · simp [batteryCheck, h]
  · simp only [batteryCheck, h]
    split_ifs <;> simp [dictGet_dictSet_self]

theorem check_node_health_absent (st : HealthState) (now : Int) (id : String) :
    check_node_health st now id [] =
      (if (dictGet st.last_seen id).isSome then [AlertCat.offline] else [], st) := by
  simp only [check_node_health, List.isEmpty_nil, if_true]
  split_ifs <;> rfl

theorem check_node_health_cons_last_seen (st : HealthState) (now : Int) (id : String)
    (hd : String × String) (tl : List (String × String)) :
    (check_node_health st now id (hd :: tl)).2.last_seen = dictSet st.last_seen id now := by
  have he : (hd :: tl).isEmpty = false := rfl
  simp [check_node_health, he, snrCheck_last_seen, batteryCheck_last_seen]

/-- The state `check_node_health` hands to its battery block on a present
observation. -/
def seenState (st : HealthState) (now : Int) (id : String) : HealthState :=
  { st with last_seen := dictSet st.last_seen id now }

theorem check_node_health_cons (st : HealthState) (now : Int) (id : String)
    (hd : String × String) (tl : List (String × String)) :
    check_node_health st now id (hd :: tl) =
      ((batteryCheck (seenState st now id) now id (hd :: tl)).1 ++
        (snrCheck (batteryCheck (seenState st now id) now id (hd :: tl)).2 now id (hd :: tl)).1,
       (snrCheck (batteryCheck (seenState st now id) now id (hd :: tl)).2 now id (hd :: tl)).2) :=
  rfl

theorem lowBattery_not_mem_snrCheck (st : HealthState) (now : Int) (id : String)
    (data : List (String × String)) :
    AlertCat.lowBattery ∉ (snrCheck st now id data).1 := by
  rcases snrCheck_fst_cases st now id data with h | h <;> simp [h]

theorem weakSignal_not_mem_batteryCheck (st : HealthState) (now : Int) (id : String)
    (data : List (String × String)) :
    AlertCat.weakSignal ∉ (batteryCheck st now id data).1 := by
  rcases batteryCheck_fst_cases st now id data with h | h <;> simp [h]

theorem batteryPercentOf_nil : batteryPercentOf [] = none := rfl

theorem snrDbOf_nil : snrDbOf [] = none := rfl

theorem mem_lowBattery_check_iff (st : HealthState) (now : Int) (id : String)
    (data : List (String × String)) :
    AlertCat.lowBattery ∈ (check_node_health st now id data).1 ↔
      (∃ lvl, batteryPercentOf data = some lvl ∧ lvl ≤ BATTERY_THRESHOLD) ∧
        cooldownOpen st.alert_count (alertKey id .battery) now = true := by
  rcases data with _ | ⟨hd, tl⟩
  · rw [check_node_health_absent]
    constructor
    · intro h
      split_ifs at h <;> simp_all
    · rintro ⟨⟨lvl, hl, -⟩, -⟩
      rw [batteryPercentOf_nil] at hl
      cases hl
  · rw [check_node_health_cons]
    simp only [List.mem_append]
    have hs := lowBattery_not_mem_snrCheck
      (batteryCheck (seenState st now id) now id (hd :: tl)).2 now id (hd :: tl)
    have hb := mem_lowBattery_batteryCheck_iff (seenState st now id) now id (hd :: tl)
    constructor
    · rintro (h | h)
      · exact hb.mp h
      · exact absurd h hs
    · intro h
      exact Or.inl (hb.mpr h)

theorem mem_weakSignal_check (st : HealthState) (now : Int) (id : String)
    (data : List (String × String))
    (h : AlertCat.weakSignal ∈ (check_node_health st now id data).1) :
    ∃ q, snrDbOf data = some q ∧ q < -10 := by
  rcases data with _ | ⟨hd, tl⟩
  · rw [check_node_health_absent] at h
    split_ifs at h <;> simp_all
  · rw [check_node_health_cons] at h
    simp only [List.mem_append] at h
    rcases h with h | h
    · exact absurd h (weakSignal_not_mem_batteryCheck _ _ _ _)
    · exact ((mem_weakSignal_snrCheck_iff _ _ _ _).mp h).1

theorem check_fired_battery_count (st : HealthState) (now : Int) (id : String)
    (data : List (String × String))
    (h : AlertCat.lowBattery ∈ (check_node_health st now id data).1) :
    dictGet (check_node_health st now id data).2.alert_count (alertKey id .battery) =
      some now := by
  rcases data with _ | ⟨hd, tl⟩
  · rw [check_node_health_absent] at h
    split_ifs at h <;> simp_all
  · rw [check_node_health_cons] at h ⊢
    simp only [List.mem_append] at h
    rcases h with h | h
    · rw [snrCheck_alert_count_battery]
      exact batteryCheck_count_of_fire _ _ _ _ h
    · exact absurd h (lowBattery_not_mem_snrCheck _ _ _ _)

theorem check_battery_status_get (st : HealthState) (now : Int) (id : String)
    (data : List (String × String)) :
    dictGet (check_node_health st now id data).2.battery_status id =
      match batteryPercentOf data with
      | some n => some n
      | none => dictGet st.battery_status id := by
  rcases data with _ | ⟨hd, tl⟩
  · rw [check_node_health_absent, batteryPercentOf_nil]
  · rw [check_node_health_cons]
    have hb := batteryCheck_battery_status_get (seenState st now id) now id (hd :: tl)
    rw [snrCheck_battery_status]
    exact hb

/-! ## Claim C1: offline alerting is level-triggered, not edge-triggered -/

/-- Observation sequence present, present, absent, absent, present for node
`!n` (a present observation carries a field map without battery or SNR
fields). -/
def c1Calls : List (Int × String × List (String × String)) :=
  [(0, "!n", [("User", "x")]), (300, "!n", [("User", "x")]), (600, "!n", []),
   (900, "!n", []), (1200, "!n", [("User", "x")])]

/-- C1 counterexample: the claim says the sequence present, present, absent,
absent, present produces exactly one offline event and none at the second
consecutive absent observation; `check_node_health` in fact produces an
offline event at both absent observations (two in total), because nothing
ever removes the node from `last_seen`. -/
theorem claim_C1_counterexample :
    (runChecks initState c1Calls).1 =
        [[], [], [AlertCat.offline], [AlertCat.offline], []] ∧
      ((runChecks initState c1Calls).1.map
          (fun l => l.count AlertCat.offline)).sum = 2 := by
  constructor <;> decide

/-- C1 (amended): offline alerts are level-triggered: every absent
observation of a node with a `last_seen` entry produces exactly one offline
event and leaves the state unchanged (so the next absent observation fires
again); in particular the sequence present, present, absent, absent, present
produces exactly two offline events, one at each absent observation. -/
theorem claim_C1 :
    (∀ (st : HealthState) (now : Int) (id : String),
        (dictGet st.last_seen id).isSome = true →
        check_node_health st now id [] = ([AlertCat.offline], st)) ∧
      (runChecks initState c1Calls).1 =
        [[], [], [AlertCat.offline], [AlertCat.offline], []] := by
  constructor
  · intro st now id h
    rw [check_node_health_absent, if_pos h]
  · decide

/-- Witness for C1's amended theorem at a concrete state. -/
theorem claim_C1_witness :
    check_node_health ⟨[("!n", 0)], [], []⟩ 5 "!n" [] =
      ([AlertCat.offline], ⟨[("!n", 0)], [], []⟩) :=
  claim_C1.1 ⟨[("!n", 0)], [], []⟩ 5 "!n" (by decide)

/-! ## Claim C2: low-battery alerting with cooldown -/

/-- Ten evaluations of a node at 10% battery, 60 time units apart. -/
def c2CallsTen : List (Int × String × List (String × String)) :=
  [(0, "!n", [("Battery", "10%")]), (60, "!n", [("Battery", "10%")]),
   (120, "!n", [("Battery", "10%")]), (180, "!n", [("Battery", "10%")]),
   (240, "!n", [("Battery", "10%")]), (300, "!n", [("Battery", "10%")]),
   (360, "!n", [("Battery", "10%")]), (420, "!n", [("Battery", "10%")]),
   (480, "!n", [("Battery", "10%")]), (540, "!n", [("Battery", "10%")])]

/-- The same ten evaluations followed by one at elapsed time 3601. -/
def c2CallsEleven : List (Int × String × List (String × String)) :=
  c2CallsTen ++ [(3601, "!n", [("Battery", "10%")])]

/-- C2: an evaluation fires a low-battery event iff the parsed battery level
exists and is at most the threshold (20) and the cooldown entry for
`(nodeId, low-battery)` is absent or fired more than 3600 time units ago;
firing records `now` as the new firing time.  Ten evaluations at 10% battery
spaced 60 units apart fire exactly once (the first call); an eleventh at
elapsed time 3601 fires a second time. -/
theorem claim_C2 :
    (∀ (st : HealthState) (now : Int) (id : String) (data : List (String × String)),
        (AlertCat.lowBattery ∈ (check_node_health st now id data).1 ↔
          (∃ lvl, batteryPercentOf data = some lvl ∧ lvl ≤ BATTERY_THRESHOLD) ∧
            cooldownOpen st.alert_count (alertKey id .battery) now = true) ∧
        (AlertCat.lowBattery ∈ (check_node_health st now id data).1 →
          dictGet (check_node_health st now id data).2.alert_count
            (alertKey id .battery) = some now)) ∧
      (runChecks initState c2CallsTen).1 =
        [[AlertCat.lowBattery], [], [], [], [], [], [], [], [], []] ∧
      (runChecks initState c2CallsEleven).1 =
        [[AlertCat.lowBattery], [], [], [], [], [], [], [], [], [],
         [AlertCat.lowBattery]] := by
  refine ⟨fun st now id data => ⟨mem_lowBattery_check_iff st now id data,
    check_fired_battery_count st now id data⟩, ?_, ?_⟩ <;> decide

/-- Witness for C2 at a concrete evaluation: with empty prior state a 10%
battery fires, and the firing time is recorded under the composite key. -/
theorem claim_C2_witness :
    dictGet (check_node_health initState 5 "!n" [("Battery", "10%")]).2.alert_count
      (alertKey "!n" .battery) = some 5 :=
  (claim_C2.1 initState 5 "!n" [("Battery", "10%")]).2 (by decide)

/-! ## Claim C3: deterministic event order offline, low-battery, weak-signal -/

/-- C3: the alert list of one evaluation is always a subsequence of
`[offline, low-battery, weak-signal]` (hence deterministically ordered), and
the spec's worked example — battery 15%, SNR -12.3dB, empty prior state,
`now` = 1000 — yields exactly low-battery then weak-signal and records firing
time 1000 under both suppression keys. -/
theorem claim_C3 :
    (∀ (st : HealthState) (now : Int) (id : String) (data : List (String × String)),
        List.Sublist (check_node_health st now id data).1
          [AlertCat.offline, AlertCat.lowBattery, AlertCat.weakSignal]) ∧
      (check_node_health initState 1000 "!abc123"
          [("Battery", "15%"), ("SNR", "-12.3dB")]).1 =
        [AlertCat.lowBattery, AlertCat.weakSignal] ∧
      dictGet (check_node_health initState 1000 "!abc123"
          [("Battery", "15%"), ("SNR", "-12.3dB")]).2.alert_count
        (alertKey "!abc123" .battery) = some 1000 ∧
      dictGet (check_node_health initState 1000 "!abc123"
          [("Battery", "15%"), ("SNR", "-12.3dB")]).2.alert_count
        (alertKey "!abc123" .snr) = some 1000 := by
  refine ⟨fun st now id data => ?_, by decide, by decide, by decide⟩
  rcases data with _ | ⟨hd, tl⟩
  · rw [check_node_health_absent]
    split_ifs
    · exact List.Sublist.cons₂ _ (List.nil_sublist _)
    · exact List.nil_sublist _
  · rw [check_node_health_cons]
    rcases batteryCheck_fst_cases (seenState st now id) now id (hd :: tl) with hb | hb <;>
      rcases snrCheck_fst_cases (batteryCheck (seenState st now id) now id (hd :: tl)).2
        now id (hd :: tl) with hs | hs <;>
      rw [hb, hs]
    · exact List.nil_sublist _
    · exact List.Sublist.cons _ (List.Sublist.cons _ (List.Sublist.refl _))
    · exact List.Sublist.cons _ (List.Sublist.cons₂ _ (List.nil_sublist _))
    · exact List.Sublist.cons _ (List.Sublist.refl _)

/-! ## Claim C7: a never-seen node is never alerted offline -/

theorem runChecks_cons (st : HealthState) (c : Int × String × List (String × String))
    (rest : List (Int × String × List (String × String))) :
    runChecks st (c :: rest) =
      ((check_node_health st c.1 c.2.1 c.2.2).1 ::
         (runChecks (check_node_health st c.1 c.2.1 c.2.2).2 rest).1,
       (runChecks (check_node_health st c.1 c.2.1 c.2.2).2 rest).2) := rfl

theorem runChecks_no_offline (id : String)
    (calls : List (Int × String × List (String × String))) :
    ∀ st : HealthState, dictGet st.last_seen id = none →
      (∀ c ∈ calls, c.2.1 = id → c.2.2 = []) →
      ∀ p ∈ calls.zip (runChecks st calls).1, p.1.2.1 = id → AlertCat.offline ∉ p.2 := by
  induction calls with
  | nil =>
    intro st _ _ p hp
    simp [runChecks] at hp
  | cons c rest ih =>
    intro st hst hcalls p hp hpid
    obtain ⟨now, nid, data⟩ := c
    rw [runChecks_cons] at hp
    have hrest : ∀ c' ∈ rest, c'.2.1 = id → c'.2.2 = [] :=
      fun c' hc' => hcalls c' (List.mem_cons_of_mem _ hc')
    by_cases hnid : nid = id
    · subst hnid
      have hdata : data = [] := hcalls _ (List.mem_cons_self _ _) rfl
      subst hdata
      have hr : check_node_health st now nid [] = ([], st) := by
        rw [check_node_health_absent, hst]
        rfl
      rw [hr] at hp
      rcases List.mem_cons.mp hp with hp | hp
      · subst hp
        simp
      · exact ih st hst hrest p hp hpid
    · have hr2 : dictGet (check_node_health st now nid data).2.last_seen id = none := by
        rcases data with _ | ⟨hd, tl⟩
        · rw [check_node_health_absent]
          exact hst
        · rw [check_node_health_cons_last_seen]
          rw [dictGet_dictSet_ne _ _ (fun e => hnid e.symm)]
          exact hst
      rcases List.mem_cons.mp hp with hp | hp
      · subst hp
        exact absurd hpid hnid
      · exact ih _ hr2 hrest p hp hpid

/-- C7: starting from the initial state, over any sequence of evaluations in
which the given node is only ever evaluated absent (empty field map), no
evaluation of that node produces an offline event: a never-seen node is
unknown, not offline. -/
theorem claim_C7 (calls : List (Int × String × List (String × String))) (id : String)
    (h : ∀ c ∈ calls, c.2.1 = id → c.2.2 = []) :
    ∀ p ∈ calls.zip (runChecks initState calls).1, p.1.2.1 = id →
      AlertCat.offline ∉ p.2 :=
  runChecks_no_offline id calls initState rfl h

/-- Witness for C7: a single absent evaluation of a never-seen node emits no
offline event. -/
theorem claim_C7_witness : AlertCat.offline ∉ ([] : List AlertCat) :=
  claim_C7 [(0, "!a", [])] "!a" (by decide)
    ((0, "!a", []), ([] : List AlertCat)) (by decide) rfl

/-! ## Claim C6: derived numeric health values -/

/-- C6 counterexample: the claim restricts `batteryPercent` to [0,100], but a
`Battery` field of `150%` classifies to 150 and is propagated into
`battery_status`; the code never range-checks the parsed value. -/
theorem claim_C6_counterexample :
    batteryPercentOf [("Battery", "150%")] = some 150 ∧
      ¬((150 : Int) ≤ 100) ∧
      dictGet (check_node_health initState 0 "!a"
          [("Battery", "150%")]).2.battery_status "!a" = some 150 :=
  ⟨by decide, by decide, by decide⟩

/-- C6 (amended): `batteryPercent` is either absent or exactly the parsed
integer (not necessarily within [0,100]), and `snrDb` is either absent or the
parsed rational; an unparseable field leaves the derived value absent — the
cached `battery_status` entry changes only when the parse succeeds (never a
default 0), and a low-battery or weak-signal event can only arise from a
successfully parsed value meeting its threshold (never from a sentinel). -/
theorem claim_C6 :
    (∀ (st : HealthState) (now : Int) (id : String)
        (data : List (String × String)) (n : Int),
        batteryPercentOf data = some n →
        dictGet (check_node_health st now id data).2.battery_status id = some n) ∧
      (∀ (st : HealthState) (now : Int) (id : String) (data : List (String × String)),
        batteryPercentOf data = none →
        dictGet (check_node_health st now id data).2.battery_status id =
          dictGet st.battery_status id) ∧
      (∀ (st : HealthState) (now : Int) (id : String) (data : List (String × String)),
        AlertCat.lowBattery ∈ (check_node_health st now id data).1 →
        ∃ n, batteryPercentOf data = some n ∧ n ≤ BATTERY_THRESHOLD) ∧
      (∀ (st : HealthState) (now : Int) (id : String) (data : List (String × String)),
        AlertCat.weakSignal ∈ (check_node_health st now id data).1 →
        ∃ q, snrDbOf data = some q ∧ q < -10) := by
  refine ⟨?_, ?_, ?_, ?_⟩
  · intro st now id data n hn
    rw [check_battery_status_get, hn]
  · intro st now id data hn
    rw [check_battery_status_get, hn]
  · intro st now id data h
    exact ((mem_lowBattery_check_iff st now id data).mp h).1
  · intro st now id data h
    exact mem_weakSignal_check st now id data h

/-- Witness for C6 at a concrete parse: battery `50%` is cached as exactly
50. -/
theorem claim_C6_witness :
    dictGet (check_node_health initState 0 "!a"
        [("Battery", "50%")]).2.battery_status "!a" = some 50 :=
  claim_C6.1 initState 0 "!a" [("Battery", "50%")] 50 (by decide)

/-! ## Claim C10: injectivity of the composite suppression keys -/

/-- C10: the string encoding of suppression keys is injective: two
`(nodeId, category)` pairs collide on `nodeId + "_battery"` /
`nodeId + "_snr"` only when they are the same pair, even for node ids that
contain the `_` delimiter. -/
theorem claim_C10 (n1 n2 : String) (c1 c2 : CooldownCat)
    (h : alertKey n1 c1 = alertKey n2 c2) : n1 = n2 ∧ c1 = c2 :=
  alertKey_injective h

/-- Witness for C10 at a node id containing the delimiter. -/
theorem claim_C10_witness : "!a_b" = "!a_b" ∧ CooldownCat.battery = CooldownCat.battery :=
  claim_C10 "!a_b" "!a_b" .battery .battery rfl

/-! ## Claim C5: single-node extraction -/

/-- C5 counterexample: the claim says collection stops at the next header
line, but `parse_node_data` skips any line stripping to the target id (its
`continue` branch is checked before the `break`), so with the target header
duplicated it collects fields from both blocks, while the spec-described
extraction stops at the second header. -/
theorem claim_C5_counterexample :
    parse_node_data "!a\n  x: 1\n!a\n  y: 2" "!a" = [("x", "1"), ("y", "2")] ∧
      specParseSingleNode "!a\n  x: 1\n!a\n  y: 2" "!a" = [("x", "1")] :=
  ⟨by decide, by decide⟩

theorem parse_node_data_go_true (id : String) :
    ∀ (lines : List String) (acc : List (String × String)),
      parse_node_data_go id lines true acc = amendCollectFields id lines acc := by
  intro lines
  induction lines with
  | nil => intro acc; rfl
  | cons l rest ih =>
    intro acc
    simp only [parse_node_data_go, amendCollectFields]
    by_cases h1 : pyStrip l = id
    · simp [h1, ih]
    · simp only [h1, if_false]
      by_cases h2 : pyStartsWith l "!"
      · simp [h2]
      · simp only [h2, Bool.false_eq_true, if_false]
        by_cases h3 : l.data.contains ':' <;> simp [h3, ih]

theorem parse_node_data_go_false (id : String) :
    ∀ (lines : List String) (acc : List (String × String)),
      parse_node_data_go id lines false acc =
        match scanTarget id lines with
        | none => acc
        | some rest => amendCollectFields id rest acc := by
  intro lines
  induction lines with
  | nil => intro acc; rfl
  | cons l rest ih =>
    intro acc
    simp only [parse_node_data_go, scanTarget]
    by_cases h1 : pyStrip l = id
    · simp [h1, parse_node_data_go_true]
    · simp [h1, ih]

theorem scanTarget_eq_none (id : String) (lines : List String)
    (h : ∀ l ∈ lines, pyStrip l ≠ id) : scanTarget id lines = none := by
  induction lines with
  | nil => rfl
  | cons l rest ih =>
    simp only [scanTarget, h l (List.mem_cons_self _ _), if_false]
    exact ih fun l' hl' => h l' (List.mem_cons_of_mem _ hl')

/-- C5 (amended): `parse_node_data` equals the scan-then-collect extraction
that skips lines stripping to the target id, stops at the first line that
starts with `!` and does not strip to the target (or EOF), and stores every
line containing `:` split on the first `:` with both sides stripped; in
particular it returns the empty mapping whenever no line of the input strips
to the target id. -/
theorem claim_C5 :
    (∀ text target : String,
        parse_node_data text target = amendedSingleNode text target) ∧
      (∀ text target : String,
        (∀ l ∈ pySplitLines text, pyStrip l ≠ target) →
        parse_node_data text target = []) := by
  have key : ∀ text target : String,
      parse_node_data text target = amendedSingleNode text target := by
    intro text target
    rw [parse_node_data, amendedSingleNode, parse_node_data_go_false]
  refine ⟨key, fun text target h => ?_⟩
  rw [key, amendedSingleNode, scanTarget_eq_none target (pySplitLines text) h]

/-- Witness for C5 at an input not containing the target. -/
theorem claim_C5_witness : parse_node_data "x\ny" "!a" = [] :=
  claim_C5.2 "x\ny" "!a" (by decide)

/-! ## Claim C4: line classification of `parse_nodes` -/

/-- C4 counterexample: under the spec's classification the input
`" !x\n a:b\n  c:"` has no header (every line is either whitespace-indented
or lacks `:`), so the claimed parse result is empty; `parse_nodes`, which
distinguishes lines by a two-space indent instead, treats `" !x"` (a single
leading space) as the header of a node `!x`, ignores the singly indented
field line `" a:b"`, and drops the empty-valued field line `"  c:"`. -/
theorem claim_C4_counterexample :
    parse_nodes " !x\n a:b\n  c:" = [("!x", [])] ∧
      specParseNodes " !x\n a:b\n  c:" = [] :=
  ⟨by decide, by decide⟩

theorem parse_nodes_step_eq (acc : NodesMap × Option String) (line : String) :
    parse_nodes_step acc line = amendedStep acc line := by
  simp only [parse_nodes_step, amendedStep, lineKind, codeHeaderLine]
  by_cases h1 : pyStartsWith line "  "
  · simp only [h1, Bool.not_true, Bool.false_and, Bool.true_and, Bool.false_eq_true,
      if_false, if_true]
    by_cases h2 : line.data.contains ':'
    · simp only [h2, if_true]
      rcases hcur : acc.2 with _ | cur
      · split_ifs <;> rfl
      · split_ifs <;> rfl
    · simp only [h2, Bool.false_eq_true, if_false]
  · simp only [h1, Bool.not_false, Bool.true_and, Bool.false_and, Bool.false_eq_true,
      if_false]
    by_cases h3 : pyStartsWith (pyStrip line) "!"
    · simp [h3]
    · simp [h3]

theorem parse_nodes_go_eq (lines : List String) :
    ∀ acc : NodesMap × Option String,
      parse_nodes_go lines acc = amendedParseNodes_go lines acc := by
  induction lines with
  | nil => intro acc; rfl
  | cons l rest ih =>
    intro acc
    rw [parse_nodes_go, amendedParseNodes_go, parse_nodes_step_eq, ih]

/-- C4 (amended): `parse_nodes` classifies every line exactly as `lineKind`
does — a node header iff the line does not begin with two spaces and its
trimmed form begins with `!`; a stored field iff the line begins with two
spaces, contains `:`, and stripping then splitting on the first `:` leaves a
non-empty key and value (both sides stripped, last occurrence of a key
winning, field lines before any header silently dropped); all other lines are
ignored. -/
theorem claim_C4 (output : String) : parse_nodes output = amendedParseNodes output := by
  rw [parse_nodes, amendedParseNodes, parse_nodes_go_eq]

/-! ## Claim C8: one entry per header -/

theorem lineKind_of_codeHeader {l : String} (h : codeHeaderLine l = true) :
    lineKind l = .headerOf (pyStrip l) := by
  simp [lineKind, h]

theorem lineKind_not_header {l : String} (h : codeHeaderLine l = false) :
    ∀ id, lineKind l ≠ .headerOf id := by
  intro id
  simp only [lineKind, h, Bool.false_eq_true, if_false]
  split_ifs <;> intro hc <;> exact LineKind.noConfusion hc

theorem amended_go_keys (lines : List String) :
    ∀ (nodes : NodesMap) (cur : Option String),
      (nodes.map Prod.fst ++ (lines.filter codeHeaderLine).map pyStrip).Nodup →
      (∀ c, cur = some c → c ∈ nodes.map Prod.fst) →
      (amendedParseNodes_go lines (nodes, cur)).1.map Prod.fst =
        nodes.map Prod.fst ++ (lines.filter codeHeaderLine).map pyStrip := by
  induction lines with
  | nil =>
    intro nodes cur _ _
    simp [amendedParseNodes_go]
  | cons l rest ih =>
    intro nodes cur hN hinv
    rw [amendedParseNodes_go]
    by_cases hch : codeHeaderLine l = true
    · have hk := lineKind_of_codeHeader hch
      have hfil : (l :: rest).filter codeHeaderLine = l :: rest.filter codeHeaderLine := by
        simp [List.filter_cons, hch]
      rw [hfil] at hN ⊢
      simp only [List.map_cons] at hN ⊢
      have hnotin : pyStrip l ∉ nodes.map Prod.fst := by
        rcases List.nodup_append.mp hN with ⟨-, -, hdisj⟩
        exact fun hmem => hdisj hmem (List.mem_cons_self _ _)
      have hstep : amendedStep (nodes, cur) l =
          (dictSet nodes (pyStrip l) [], some (pyStrip l)) := by
        rw [amendedStep, hk]
      rw [hstep]
      have hkeys := keys_dictSet_new nodes ([] : List (String × String)) hnotin
      have hN' : ((dictSet nodes (pyStrip l) []).map Prod.fst ++
          (rest.filter codeHeaderLine).map pyStrip).Nodup := by
        rw [hkeys, List.append_assoc]
        simpa using hN
      have hinv' : ∀ c, some (pyStrip l) = some c →
          c ∈ (dictSet nodes (pyStrip l) []).map Prod.fst := by
        intro c hc
        cases hc
        rw [hkeys]
        exact List.mem_append_right _ (List.mem_singleton_self _)
      rw [ih _ _ hN' hinv', hkeys, List.append_assoc]
      rfl
    · have hch' : codeHeaderLine l = false := by
        cases hcl : codeHeaderLine l
        · rfl
        · exact absurd hcl hch
      have hfil : (l :: rest).filter codeHeaderLine = rest.filter codeHeaderLine := by
        simp [List.filter_cons, hch']
      rw [hfil] at hN ⊢
      rcases hk : lineKind l with id | ⟨key, value⟩ | _
      · exact absurd hk (lineKind_not_header hch' id)
      · rcases cur with _ | c
        · have hstep : amendedStep (nodes, none) l = (nodes, none) := by
            rw [amendedStep, hk]
          rw [hstep]
          exact ih _ _ hN (by intro c hc; cases hc)
        · have hc : c ∈ nodes.map Prod.fst := hinv c rfl
          have hstep : amendedStep (nodes, some c) l =
              (dictSet nodes c (dictSet ((dictGet nodes c).getD []) key value),
               some c) := by
            rw [amendedStep, hk]
          rw [hstep]
          have hkeys := keys_dictSet_mem nodes
            (dictSet ((dictGet nodes c).getD []) key value) hc
          have hN' : ((dictSet nodes c
              (dictSet ((dictGet nodes c).getD []) key value)).map Prod.fst ++
              (rest.filter codeHeaderLine).map pyStrip).Nodup := by
            rw [hkeys]; exact hN
          have hinv' : ∀ c', some c = some c' →
              c' ∈ (dictSet nodes c
                (dictSet ((dictGet nodes c).getD []) key value)).map Prod.fst := by
            intro c' hc'
            cases hc'
            rw [hkeys]
            exact hc
          rw [ih _ _ hN' hinv', hkeys]
      · have hstep : amendedStep (nodes, cur) l = (nodes, cur) := by
          rw [amendedStep, hk]
        rw [hstep]
        exact ih _ _ hN hinv

/-- C8 counterexample: the claim quantifies over texts with N well-formed
headers (per the spec's classification) and no malformed lines.  The text
`"!a\n !b: v"` has exactly one spec-header and its other line is a
spec-field line (so nothing is malformed), yet `parse_nodes` returns two
entries, because a singly indented field line whose content starts with `!`
is taken as a header.  The text `"!a\n!a"` has two well-formed headers and
no other lines, yet `parse_nodes` returns one entry, because a duplicated
header reuses (and resets) the same key. -/
theorem claim_C8_counterexample :
    (((pySplitLines "!a\n !b: v").filter specHeaderLine).length = 1 ∧
      (∀ l ∈ pySplitLines "!a\n !b: v",
        specHeaderLine l = true ∨ specFieldLine l = true) ∧
      (parse_nodes "!a\n !b: v").length = 2) ∧
    (((pySplitLines "!a\n!a").filter specHeaderLine).length = 2 ∧
      (∀ l ∈ pySplitLines "!a\n!a", specHeaderLine l = true) ∧
      (parse_nodes "!a\n!a").length = 1) :=
  ⟨⟨by decide, by decide, by decide⟩, ⟨by decide, by decide, by decide⟩⟩

/-- C8 (amended): for every raw text whose header lines — as `parse_nodes`
classifies them: lines not beginning with two spaces whose trimmed form
begins with `!` — have pairwise distinct trimmed values, `parse_nodes`
returns exactly one entry per header line, keyed by the trimmed header
string, in order of first appearance. -/
theorem claim_C8 (output : String)
    (h : (((pySplitLines output).filter codeHeaderLine).map pyStrip).Nodup) :
    (parse_nodes output).map Prod.fst =
        ((pySplitLines output).filter codeHeaderLine).map pyStrip ∧
      (parse_nodes output).length =
        ((pySplitLines output).filter codeHeaderLine).length := by
  have hmain : (parse_nodes output).map Prod.fst =
      ((pySplitLines output).filter codeHeaderLine).map pyStrip := by
    rw [parse_nodes, parse_nodes_go_eq]
    have := amended_go_keys (pySplitLines output) [] none
      (by simpa using h) (by intro c hc; cases hc)
    simpa using this
  refine ⟨hmain, ?_⟩
  have hlen := congrArg List.length hmain
  rwa [List.length_map, List.length_map] at hlen

/-- Witness for C8 at a concrete two-header text. -/
theorem claim_C8_witness :
    (parse_nodes "!a\n  x: 1\n!b").map Prod.fst =
        ((pySplitLines "!a\n  x: 1\n!b").filter codeHeaderLine).map pyStrip ∧
      (parse_nodes "!a\n  x: 1\n!b").length =
        ((pySplitLines "!a\n  x: 1\n!b").filter codeHeaderLine).length :=
  claim_C8 "!a\n  x: 1\n!b" (by decide)

/-! ## Claim C9: `parse_nodes` is total; its partial operations never fail -/

theorem contains_iff_mem {l : List Char} {c : Char} : l.contains c = true ↔ c ∈ l :=
  List.elem_iff

theorem mem_dropWhile_of_mem {p : Char → Bool} :
    ∀ {l : List Char} {c : Char}, c ∈ l → p c = false → c ∈ l.dropWhile p := by
  intro l
  induction l with
  | nil => intro c h _; cases h
  | cons x xs ih =>
    intro c h hc
    rw [List.dropWhile_cons]
    split_ifs with hx
    · rcases List.mem_cons.mp h with rfl | h'
      · rw [hc] at hx; cases hx
      · exact ih h' hc
    · exact h

theorem mem_stripChars {l : List Char} {c : Char} (h : c ∈ l) (hc : pyWs c = false) :
    c ∈ stripChars l := by
  unfold stripChars
  rw [List.mem_reverse]
  apply mem_dropWhile_of_mem _ hc
  rw [List.mem_reverse]
  exact mem_dropWhile_of_mem h hc

theorem contains_pyStrip {l : String} (h : l.data.contains ':' = true) :
    (pyStrip l).data.contains ':' = true := by
  rw [contains_iff_mem] at h ⊢
  exact mem_stripChars h rfl

theorem pySplitOnce_of_contains {l : List Char} {c : Char} (h : l.contains c = true) :
    pySplitOnce c l = [(splitFirstAux c l).1, (splitFirstAux c l).2] := by
  rw [pySplitOnce, if_pos h]

theorem parse_nodes_chk_go_ok (lines : List String) :
    ∀ (nodes : NodesMap) (cur : Option String),
      (∀ c, cur = some c → (dictGet nodes c).isSome = true) →
      parse_nodes_chk_go lines (nodes, cur) =
        .ok (parse_nodes_go lines (nodes, cur)).1 := by
  induction lines with
  | nil => intro nodes cur _; rfl
  | cons l rest ih =>
    intro nodes cur hinv
    simp only [parse_nodes_chk_go, parse_nodes_go, parse_nodes_step]
    by_cases h1 : pyStartsWith l "  "
    · simp only [h1, if_true]
      by_cases h2 : l.data.contains ':'
      · simp only [h2, if_true]
        rw [pySplitOnce_of_contains (contains_pyStrip h2)]
        rcases cur with _ | c
        · exact ih _ _ (by intro c hc; cases hc)
        · obtain ⟨record, hrec⟩ := Option.isSome_iff_exists.mp (hinv c rfl)
          simp only [hrec, Option.getD_some]
          split_ifs with h3
          · refine ih _ _ ?_
            intro c' hc'
            cases hc'
            rw [dictGet_dictSet_self]
            rfl
          · exact ih _ _ (by intro c' hc'; cases hc'; exact hinv _ rfl)
      · simp only [h2, Bool.false_eq_true, if_false]
        exact ih _ _ hinv
    · simp only [h1, Bool.false_eq_true, if_false]
      by_cases h3 : pyStartsWith (pyStrip l) "!"
      · simp only [h3, if_true]
        refine ih _ _ ?_
        intro c' hc'
        cases hc'
        rw [dictGet_dictSet_self]
        rfl
      · simp only [h3, Bool.false_eq_true, if_false]
        exact ih _ _ hinv

/-- C9: `parse_nodes` is total on arbitrary input text: with every partial
Python operation of the loop (the two-element tuple unpacking of the split,
the `nodes[current_node]` subscript) modelled fallibly, parsing never reaches
an error case on any input, and the value produced is `parse_nodes` of that
input (at worst an empty or partial mapping). -/
theorem claim_C9 (output : String) :
    parse_nodes_chk output = Except.ok (parse_nodes output) :=
  parse_nodes_chk_go_ok (pySplitLines output) [] none (by intro c hc; cases hc)

end Mesh
